import Mathlib

/-!
Verification of the environment-provisioning orchestrator in `Setup.py`
(BAGEL setup installer).  The definitions below are a shallow embedding of
the Python source: external process behaviour (exit codes, stdout/stderr,
launch exceptions, per-package install outcomes) is abstracted into oracle
parameters, and every control-flow decision of the source is reproduced
faithfully.
-/

namespace BAGELSetup

/-- A command handed to `run_command`: either an argument list or a shell
string (the two Python types accepted at `Setup.py:64`). -/
inductive Cmd
  | ofList (args : List String)
  | ofString (s : String)
deriving DecidableEq, Repr

/-- Outcome of attempting to launch and await the external process inside
`run_command` (`Setup.py:91-112`): the process completed with a return code
and optional captured streams, or `subprocess.Popen` raised
`FileNotFoundError`, or some other exception was raised during launch. -/
inductive ProcOutcome
  | completed (returncode : Int) (stdout stderr : Option String)
  | fileNotFound (errMsg : String)
  | launchError (errMsg : String)
deriving DecidableEq, Repr

/-- The `(success, stdout, stderr)` triple returned by `run_command`. -/
structure RunResult where
  succeeded : Bool
  stdout : String
  stderr : String
deriving DecidableEq, Repr

/-- Shallow embedding of `BAGELSetup.run_command` (`Setup.py:64-112`).
The process outcome is an oracle parameter; the function reproduces the
classification logic: captured streams default to the empty string
(`stdout or ""`), a nonzero return code yields a false result only when
`check` is set, and both exception paths return a false result with the
exception text as stderr. -/
def run_command (_command : Cmd) (captureOutput check _shell : Bool)
    (outcome : ProcOutcome) : RunResult :=
  match outcome with
  | .completed rc out err =>
      let stdout := if captureOutput then out.getD "" else ""
      let stderr := if captureOutput then err.getD "" else ""
      if check ∧ rc ≠ 0 then ⟨false, stdout, stderr⟩
      else ⟨true, stdout, stderr⟩
  | .fileNotFound msg => ⟨false, "", msg⟩
  | .launchError msg => ⟨false, "", msg⟩

/-! ## Shell-string construction (`subprocess.list2cmdline`)

`run_command` converts an argument list to a shell string with
`subprocess.list2cmdline(command)` (`Setup.py:73`), and the installer
command builder does the same for conda invocations (`Setup.py:403,436`).
The functions below embed CPython's `list2cmdline` character loop
verbatim, working on `List Char`. -/

/-- CPython `list2cmdline` quoting test: an argument is wrapped in double
quotes when it contains a space or a tab, or is empty. -/
def needquote (arg : List Char) : Bool :=
  arg.contains ' ' || arg.contains '\t' || arg.isEmpty

/-- Body of CPython `list2cmdline`'s per-argument character loop.  `bs` is
the number of pending buffered backslashes (`bs_buf`): a run of `k`
backslashes before a `"` is emitted as `2*k+1` backslashes followed by the
quote, a run before any other character is emitted unchanged, and a
trailing run is emitted doubled (then closed with `"`) when the argument
is being quoted. -/
def l2cBody (nq : Bool) : List Char → Nat → List Char
  | [], bs =>
      List.replicate bs '\\' ++
        (if nq then List.replicate bs '\\' ++ ['"'] else [])
  | c :: rest, bs =>
      if c = '\\' then l2cBody nq rest (bs + 1)
      else if c = '"' then
        List.replicate (2 * bs + 1) '\\' ++ '"' :: l2cBody nq rest 0
      else
        List.replicate bs '\\' ++ c :: l2cBody nq rest 0

/-- Quote a single argument as CPython `list2cmdline` does. -/
def quoteArg (arg : List Char) : List Char :=
  (if needquote arg then ['"'] else []) ++ l2cBody (needquote arg) arg 0

/-- CPython `subprocess.list2cmdline`: arguments are quoted individually
and joined with single spaces (a space is emitted before every argument
except the first). -/
def list2cmdline : List (List Char) → List Char
  | [] => []
  | [a] => quoteArg a
  | a :: b :: t => quoteArg a ++ ' ' :: list2cmdline (b :: t)

/-- String-level wrapper of `list2cmdline`. -/
def list2cmdlineStr (args : List String) : String :=
  ⟨list2cmdline (args.map String.data)⟩

/-! ## Re-tokenization with the MS C runtime rules

`list2cmdline` is documented to build the command line "using the same
rules as the MS C runtime"; the parser below implements those rules
(`2n` backslashes before `"` → `n` backslashes and a quoting toggle,
`2n+1` backslashes before `"` → `n` backslashes and a literal quote,
other backslashes literal, space/tab outside quotes separates
arguments). -/

/-- Parse one argument.  `inQ` is the in-quotes flag and `bs` the number of
backslashes read but not yet interpreted.  Returns the parsed argument
and the unconsumed remainder (starting at the separating whitespace). -/
def parseArgAux : List Char → Bool → Nat → List Char × List Char
  | [], _, bs => (List.replicate bs '\\', [])
  | c :: rest, inQ, bs =>
      if c = '\\' then parseArgAux rest inQ (bs + 1)
      else if c = '"' then
        if bs % 2 = 0 then
          let r := parseArgAux rest (!inQ) 0
          (List.replicate (bs / 2) '\\' ++ r.1, r.2)
        else
          let r := parseArgAux rest inQ 0
          (List.replicate (bs / 2) '\\' ++ '"' :: r.1, r.2)
      else if (c = ' ' ∨ c = '\t') ∧ inQ = false then
        (List.replicate bs '\\', c :: rest)
      else
        let r := parseArgAux rest inQ 0
        (List.replicate bs '\\' ++ c :: r.1, r.2)

theorem parseArgAux_rest_length :
    ∀ (input : List Char) (inQ : Bool) (bs : Nat),
      (parseArgAux input inQ bs).2.length ≤ input.length := by
  intro input
  induction input with
  | nil => intro inQ bs; simp [parseArgAux]
  | cons c rest ih =>
      intro inQ bs
      simp only [parseArgAux]
      split_ifs with h1 h2 h3 h4
      · exact le_trans (ih inQ (bs + 1)) (Nat.le_succ _)
      · exact le_trans (ih (!inQ) 0) (Nat.le_succ _)
      · exact le_trans (ih inQ 0) (Nat.le_succ _)
      · simp
      · exact le_trans (ih inQ 0) (Nat.le_succ _)

theorem parseArgAux_progress (c : Char) (rest : List Char)
    (hsp : c ≠ ' ') (htb : c ≠ '\t') :
    (parseArgAux (c :: rest) false 0).2.length < (c :: rest).length := by
  simp only [parseArgAux, if_true, and_true]
  split_ifs with h1 h2 h3
  · exact Nat.lt_succ_of_le (parseArgAux_rest_length rest false (0 + 1))
  · exact Nat.lt_succ_of_le (parseArgAux_rest_length rest (!false) 0)
  · rcases h3 with h | h
    · exact absurd h hsp
    · exact absurd h htb
  · exact Nat.lt_succ_of_le (parseArgAux_rest_length rest false 0)

/-- Tokenize a command line with the MS C runtime rules: skip whitespace,
then parse one argument at a time. -/
def tokenizeLoop (input : List Char) : List (List Char) :=
  match input with
  | [] => []
  | c :: rest =>
      if h : c = ' ' ∨ c = '\t' then tokenizeLoop rest
      else
        (parseArgAux (c :: rest) false 0).1 ::
          tokenizeLoop (parseArgAux (c :: rest) false 0).2
termination_by input.length
decreasing_by
  · simp
  · simp only [List.length_cons]
    push_neg at h
    exact parseArgAux_progress c rest h.1 h.2

/-! ## Installer command builder (`_get_pip_executable_cmd_list`,
`_install_package_with_pip`) -/

/-- CPython `shlex.quote` safe-character test: ASCII word characters plus
at-sign, percent, plus, equals, colon, comma, dot, slash and dash. -/
def shlexSafeChar (c : Char) : Bool :=
  c.isAlphanum || c = '_' || c = '@' || c = '%' || c = '+' || c = '=' ||
    c = ':' || c = ',' || c = '.' || c = '/' || c = '-'

/-- CPython `shlex.quote`: the empty string becomes a pair of single
quotes, strings made of safe characters are unchanged, everything else is
wrapped in single quotes with embedded single quotes escaped. -/
def shlexQuote (s : String) : String :=
  if s = "" then "''"
  else if s.data.all shlexSafeChar then s
  else "'" ++ (s.replace "'" "'\"'\"'") ++ "'"

/-- Does the second list start with the first? -/
def startsChars : List Char → List Char → Bool
  | [], _ => true
  | _ :: _, [] => false
  | a :: s, b :: t => a == b && startsChars s t

/-- Does `sub` occur contiguously inside `l`? -/
def subScan (sub : List Char) : List Char → Bool
  | [] => sub.isEmpty
  | c :: rest => startsChars sub (c :: rest) || subScan sub rest

/-- Substring test used for the msys/mingw detection
(`"msys" in self.python_executable.lower()`). -/
def strContains (s sub : String) : Bool :=
  subScan sub.data s.data

/-- Python `str.lower()` on the ASCII range, as a character-wise map. -/
def lowerStr (s : String) : String :=
  ⟨s.data.map Char.toLower⟩

/-- The per-run configuration relevant to the installer command builder:
the chosen backend, the lowered host OS name, the environment name and
the currently resolved interpreter path (`Setup.py:42-50`). -/
structure EnvCfg where
  useConda : Bool
  system : String
  envName : String
  pythonExecutable : String
deriving DecidableEq, Repr

/-- The `is_msys_python_base` condition of `Setup.py:368-373`: Windows
host, nonempty resolved interpreter path, and the lowered path contains
"msys" or "mingw". -/
def is_msys_python_base (c : EnvCfg) : Bool :=
  c.system = "windows" ∧ ¬ c.pythonExecutable = "" ∧
    (strContains (lowerStr c.pythonExecutable) "msys" ∨
     strContains (lowerStr c.pythonExecutable) "mingw")

/-- Shallow embedding of `BAGELSetup._get_pip_executable_cmd_list`
(`Setup.py:364-380`): conda backend yields the `conda run` wrapper list,
msys/mingw on Windows yields a shell string with the quoted interpreter,
otherwise a direct argument list against the resolved interpreter. -/
def _get_pip_executable_cmd_list (c : EnvCfg) : List String ⊕ String :=
  if c.useConda then
    Sum.inl ["conda", "run", "-n", c.envName, "python", "-m", "pip"]
  else if c.system = "windows" ∧ is_msys_python_base c then
    Sum.inr ("\"" ++ c.pythonExecutable ++ "\"" ++ " -m pip")
  else
    Sum.inl [c.pythonExecutable, "-m", "pip"]

/-- The flag-defaulting logic of `_install_package_with_pip`
(`Setup.py:387-390`): unless some extra flag starts with `--upgrade`, the
default `--no-cache-dir --disable-pip-version-check` flags are appended. -/
def effectiveFlags (extra_flags : List String) : List String :=
  if extra_flags.any (fun f => f.startsWith "--upgrade") then extra_flags
  else extra_flags ++ ["--no-cache-dir", "--disable-pip-version-check"]

/-- Shallow embedding of the command construction in
`BAGELSetup._install_package_with_pip` (`Setup.py:382-409`): returns the
`shell` flag and the command handed to `run_command`.  The string base
(msys/mingw) is interpolated with `shlex.quote`d flags and package spec;
a list base starting with `conda` is joined with
`subprocess.list2cmdline` and run through the shell; otherwise the plain
argument list is used. -/
def _install_package_with_pip_cmd (c : EnvCfg) (package_spec : String)
    (extra_flags : List String) : Bool × Cmd :=
  let cmd_flags := effectiveFlags extra_flags
  match _get_pip_executable_cmd_list c with
  | Sum.inr base =>
      let flags_str := String.intercalate " " (cmd_flags.map shlexQuote)
      (true, Cmd.ofString
        (base ++ " install " ++ flags_str ++ " " ++ shlexQuote package_spec))
  | Sum.inl base =>
      let use_shell := base.headD "" = "conda"
      let parts := base ++ ["install"] ++ cmd_flags ++ [package_spec]
      if use_shell then (true, Cmd.ofString (list2cmdlineStr parts))
      else (false, Cmd.ofList parts)

/-! ## Installation pipeline (`install_requirements`,
`install_critical_packages_fallback`, `install_gradio`) -/

/-- External-world oracle for one run of the installation pipeline: the
manifest's presence and the success of each external command
(per-package upgrades and installs, the torch verification command, the
bulk `pip install -r` invocation and the `pip show gradio` probe). -/
structure PipelineWorld where
  reqFileExists : Bool
  upgradeOk : String → Bool
  installOk : String → Bool
  verifyOk : Bool
  verifyStdout : String
  bulkOk : Bool
  gradioShowOk : Bool
  minor : Nat

/-- Observable pipeline events, in execution order: a build-tool upgrade,
an individual `_install_package_with_pip` call, the torch verification
command, the bulk requirements install, entry into the critical-package
fallback, and entry into the gradio helper. -/
inductive PipEvent
  | upgrade (pkg : String)
  | installPkg (spec : String)
  | verifyTorch
  | bulkInstall
  | fallbackStage
  | gradioHelper
deriving DecidableEq, Repr

/-- The version-tiered PyTorch pip specs of `Setup.py:453-460`. -/
def pt_pip_specs (minor : Nat) : List String :=
  if 13 ≤ minor then ["torch", "torchvision", "torchaudio"]
  else if minor = 12 then ["torch>=2.1", "torchvision>=0.16", "torchaudio>=2.1"]
  else ["torch>=2.0.0", "torchvision", "torchaudio"]

/-- The version-tiered NumPy constraint of `Setup.py:484-485`. -/
def numpy_spec (minor : Nat) : String :=
  if 12 ≤ minor then "numpy>=1.26.0"
  else if minor = 11 then "numpy>=1.23.2"
  else "numpy>=1.21.2"

/-- Install a list of package specs in order, stopping at the first
failure (the `for spec in pt_pip_specs: ... break` loop of
`Setup.py:462-463`).  Returns overall success and the attempted specs. -/
def installFirstFail (w : PipelineWorld) : List String → Bool × List String
  | [] => (true, [])
  | s :: rest =>
      if w.installOk s then
        let r := installFirstFail w rest
        (r.1, s :: r.2)
      else (false, [s])

/-- The fixed curated critical-package list of `Setup.py:522`. -/
def criticalPkgs : List String :=
  ["transformers>=4.30.0", "accelerate", "diffusers", "huggingface_hub",
   "safetensors", "Pillow", "opencv-python", "gradio", "einops",
   "sentencepiece", "tokenizers", "scikit-image", "jupyterlab", "notebook"]

/-- The `for pkg in critical_pkgs` loop of `Setup.py:524-526`: every
package is attempted (failures only print a warning) while successes are
counted.  Returns the success count and the emitted install events. -/
def fallbackLoop (w : PipelineWorld) : List String → Nat × List PipEvent
  | [] => (0, [])
  | p :: rest =>
      let r := fallbackLoop w rest
      ((if w.installOk p then 1 else 0) + r.1, PipEvent.installPkg p :: r.2)

/-- Shallow embedding of `BAGELSetup.install_critical_packages_fallback`
(`Setup.py:520-528`): run the loop over the curated list; the stage
succeeds iff the success count is positive. -/
def install_critical_packages_fallback (w : PipelineWorld) :
    Bool × List PipEvent :=
  let r := fallbackLoop w criticalPkgs
  (decide (0 < r.1), PipEvent.fallbackStage :: r.2)

/-- Shallow embedding of `BAGELSetup.install_gradio` (`Setup.py:530-541`):
probe `pip show gradio`; when absent, fall back to an individual
install. -/
def install_gradio_step (w : PipelineWorld) : Bool × List PipEvent :=
  if w.gradioShowOk then (true, [PipEvent.gradioHelper])
  else (w.installOk "gradio",
    [PipEvent.gradioHelper, PipEvent.installPkg "gradio"])

/-- Shallow embedding of `BAGELSetup.install_requirements`
(`Setup.py:419-518`), returning the stage result and the event trace:
missing manifest aborts immediately; the pip/setuptools/wheel upgrades
are warn-only; the PyTorch family install stops at the first failure and
is fatal; torch verification (success plus nonempty stdout) is fatal;
the NumPy pin is warn-only; bulk success invokes the gradio helper and
returns success; bulk failure hands over to the critical-package
fallback, whose result becomes the stage result. -/
def install_requirements (w : PipelineWorld) : Bool × List PipEvent :=
  if ¬ w.reqFileExists then (false, [])
  else
    let upgEvts := (["pip", "setuptools", "wheel"].map PipEvent.upgrade)
    let pt := installFirstFail w (pt_pip_specs w.minor)
    let evts1 := upgEvts ++ pt.2.map PipEvent.installPkg
    if ¬ pt.1 then (false, evts1)
    else
      let evts2 := evts1 ++ [PipEvent.verifyTorch]
      if ¬ (w.verifyOk = true ∧ ¬ w.verifyStdout = "") then (false, evts2)
      else
        let evts3 := evts2 ++ [PipEvent.installPkg (numpy_spec w.minor),
          PipEvent.bulkInstall]
        if w.bulkOk then
          let g := install_gradio_step w
          (true, evts3 ++ g.2)
        else
          let fb := install_critical_packages_fallback w
          (fb.1, evts3 ++ fb.2)

/-! ## Conda environment creation (`create_conda_environment`) and
interpreter-path resolution (`_update_python_executable_for_conda_env`) -/

/-- The comparison key of the candidate sort at `Setup.py:310`:
`(minor < 13, -minor)` compared lexicographically, expressed as a `≤`
test between candidate minors. -/
def candLE (a b : Nat) : Bool :=
  let ka : Nat := if a < 13 then 1 else 0
  let kb : Nat := if b < 13 then 1 else 0
  ka < kb || (ka = kb && b ≤ a)

/-- The sort relation induced by `candLE`. -/
def CandRel (a b : Nat) : Prop := candLE a b = true

instance : DecidableRel CandRel := fun a b => by
  unfold CandRel
  infer_instance

instance : IsTotal Nat CandRel := by
  constructor
  intro a b
  unfold CandRel candLE
  by_cases h : a < 13 <;> by_cases h2 : b < 13 <;> simp [h, h2] <;> omega

instance : IsTrans Nat CandRel := by
  constructor
  intro a b c hab hbc
  unfold CandRel candLE at hab hbc ⊢
  by_cases h : a < 13 <;> by_cases h2 : b < 13 <;> by_cases h3 : c < 13 <;>
    simp [h, h2, h3] at hab hbc ⊢ <;> omega

/-- The interpreter-version candidate computation of `Setup.py:308-310`,
with a version string `3.m` represented by its minor number `m`: the
host's minor is appended when at most 11, the fixed fallback list
`[11, 10, 12]` is added, duplicates are removed (`set`), and the result
is sorted by the key `(minor < 13, -minor)`. -/
def pyMinorCandidates (minor : Nat) : List Nat :=
  List.insertionSort CandRel
    (((if minor ≤ 11 then [minor] else []) ++ [11, 10, 12]).dedup)

/-- The creation loop of `Setup.py:311-321`: try each candidate in order,
stopping at the first success.  Returns overall success and the
attempted candidates in order. -/
def createEnvLoop (createOk : Nat → Bool) : List Nat → Bool × List Nat
  | [] => (false, [])
  | v :: rest =>
      if createOk v then (true, [v])
      else
        let r := createEnvLoop createOk rest
        (r.1, v :: r.2)

/-- Specification helper: the prefix of a candidate list up to and
including the first success (the whole list when none succeeds). -/
def attemptedUpTo (f : Nat → Bool) : List Nat → List Nat
  | [] => []
  | v :: rest => if f v then [v] else v :: attemptedUpTo f rest

/-- Operator answer to the `[u]se, [r]ecreate, or [s]kip?` prompt
(`Setup.py:302`); any answer other than `u` or `s` recreates. -/
inductive EnvChoice
  | use
  | skip
  | recreate
deriving DecidableEq, Repr

/-- External-world oracle for one run of `create_conda_environment`:
results of `conda env list`, the operator's choice, the removal result,
per-version creation results, the host minor version, and the data
needed by the interpreter-path resolution (`conda env list --json`
parse outcome as a list of environment paths given as path components,
plus a filesystem existence oracle). -/
structure CondaWorld where
  envListOk : Bool
  envListLines : List String
  choice : EnvChoice
  removeOk : Bool
  createOk : Nat → Bool
  hostMinor : Nat
  envJsonOk : Bool
  envJson : Option (List (List String))
  pyExeExists : List String → Bool

/-- Shallow embedding of
`BAGELSetup._update_python_executable_for_conda_env` (`Setup.py:323-334`):
when the json listing succeeded and parsed, the first registry entry
whose final path component equals the environment name and whose
interpreter file exists yields the new interpreter path; in every other
case the resolution yields nothing (the source merely prints a warning
and leaves `python_executable` unchanged). -/
def resolveCondaPython (envName : String) (windows : Bool)
    (w : CondaWorld) : Option (List String) :=
  if w.envJsonOk then
    match w.envJson with
    | none => none
    | some entries =>
        entries.findSome? (fun p =>
          if p.getLastD "" = envName then
            let pyExe := p ++ (if windows then ["python.exe"]
              else ["bin", "python"])
            if w.pyExeExists pyExe then some pyExe else none
          else none)
  else none

/-- Python `str.strip()` on the ASCII whitespace range: drop leading and
trailing whitespace characters. -/
def stripChars (l : List Char) : List Char :=
  ((l.dropWhile fun c => c.isWhitespace).reverse.dropWhile
    fun c => c.isWhitespace).reverse

/-- The environment-exists scan of `Setup.py:296-299`: the `conda env
list` command succeeded and some output line, stripped, starts with the
environment name. -/
def condaEnvExists (envName : String) (w : CondaWorld) : Bool :=
  w.envListOk &&
    w.envListLines.any
      (fun l => startsChars envName.data (stripChars l.data))

/-- Shallow embedding of `BAGELSetup.create_conda_environment`
(`Setup.py:293-321`), returning the stage result together with the
resolved interpreter path (`none` when resolution failed and
`python_executable` was left unchanged).  An existing matching
environment offers use/skip/recreate; otherwise (or after removal) the
version candidates are tried in order. -/
def create_conda_environment (envName : String) (windows : Bool)
    (w : CondaWorld) : Bool × Option (List String) :=
  let createPhase : Bool × Option (List String) :=
    let r := createEnvLoop w.createOk (pyMinorCandidates w.hostMinor)
    if r.1 then (true, resolveCondaPython envName windows w)
    else (false, none)
  if condaEnvExists envName w then
    match w.choice with
    | .use => (true, resolveCondaPython envName windows w)
    | .skip => (false, none)
    | .recreate => if w.removeOk then createPhase else (false, none)
  else createPhase

/-! ## Top-level exit codes (`main`, `Setup.py:626-645`) -/

/-- Outcome of the `setup.run_setup(...)` call inside `main`'s `try`
block: it returned a boolean, or `KeyboardInterrupt` or another
exception escaped. -/
inductive SetupOutcome
  | finished (ok : Bool)
  | interrupted
  | internalFault
deriving DecidableEq, Repr

/-- Shallow embedding of `main`'s exit-status dispatch
(`Setup.py:641-645`): success falls off the end of `main` (exit status
0), failure calls `sys.exit(1)`, `KeyboardInterrupt` maps to 130 and any
other exception to 2. -/
def mainExitCode : SetupOutcome → Nat
  | .finished true => 0
  | .finished false => 1
  | .interrupted => 130
  | .internalFault => 2

/-! ## Roundtrip lemmas for the shell-string construction -/

theorem parseArgAux_replicate (k : Nat) (s : List Char) (inQ : Bool)
    (bs : Nat) :
    parseArgAux (List.replicate k '\\' ++ s) inQ bs
      = parseArgAux s inQ (bs + k) := by
  induction k generalizing bs with
  | zero => simp
  | succ n ih =>
      rw [List.replicate_succ, List.cons_append]
      show parseArgAux ('\\' :: (List.replicate n '\\' ++ s)) inQ bs
        = parseArgAux s inQ (bs + (n + 1))
      rw [parseArgAux, if_pos rfl, ih]
      congr 1
      omega

/-- Helper restricting the shape of the tail continuation: the remainder
after a quoted argument is either the end of the command line or starts
with the joining space. -/
def TailOk (rest : List Char) : Prop :=
  rest = [] ∨ ∃ more, rest = ' ' :: more

theorem parse_tail (bs : Nat) (rest : List Char) (hrest : TailOk rest) :
    parseArgAux rest false bs = (List.replicate bs '\\', rest) := by
  rcases hrest with h | ⟨more, h⟩ <;> subst h
  · rfl
  · rw [parseArgAux, if_neg (by decide), if_neg (by decide),
      if_pos ⟨Or.inl rfl, rfl⟩]

theorem parse_l2cBody_quoted (arg : List Char) :
    ∀ (bs : Nat) (rest : List Char), TailOk rest →
      parseArgAux (l2cBody true arg bs ++ rest) true 0
        = (List.replicate bs '\\' ++ arg, rest) := by
  induction arg with
  | nil =>
      intro bs rest hrest
      simp only [l2cBody, if_pos trivial]
      rw [List.append_assoc, parseArgAux_replicate, List.append_assoc,
        parseArgAux_replicate, List.cons_append, List.nil_append]
      rw [parseArgAux, if_neg (by decide), if_pos rfl,
        if_pos (by omega : (0 + bs + bs) % 2 = 0)]
      have hdiv : (0 + bs + bs) / 2 = bs := by omega
      rw [hdiv]
      simp only [Bool.not_true, parse_tail 0 rest hrest]
      simp
  | cons c t ih =>
      intro bs rest hrest
      simp only [l2cBody]
      by_cases hc1 : c = '\\'
      · rw [if_pos hc1, ih (bs + 1) rest hrest, List.replicate_succ', hc1]
        simp
      · by_cases hc2 : c = '"'
        · rw [if_neg hc1, if_pos hc2]
          rw [List.append_assoc, parseArgAux_replicate, List.cons_append]
          rw [parseArgAux, if_neg (by decide), if_pos rfl,
            if_neg (by omega : ¬(0 + (2 * bs + 1)) % 2 = 0)]
          have hdiv : (0 + (2 * bs + 1)) / 2 = bs := by omega
          rw [hdiv]
          simp only [ih 0 rest hrest]
          rw [hc2]
          simp
        · rw [if_neg hc1, if_neg hc2]
          rw [List.append_assoc, parseArgAux_replicate, List.cons_append]
          rw [parseArgAux, if_neg hc1, if_neg hc2,
            if_neg (by simp : ¬((c = ' ' ∨ c = '\t') ∧ true = false))]
          simp only [ih 0 rest hrest]
          simp

theorem parse_l2cBody_unquoted (arg : List Char) :
    ∀ (bs : Nat) (rest : List Char), TailOk rest →
      arg.contains ' ' = false → arg.contains '\t' = false →
      parseArgAux (l2cBody false arg bs ++ rest) false 0
        = (List.replicate bs '\\' ++ arg, rest) := by
  induction arg with
  | nil =>
      intro bs rest hrest _ _
      simp only [l2cBody, if_neg (Bool.false_ne_true), List.append_nil]
      rw [parseArgAux_replicate, parse_tail (0 + bs) rest hrest]
      simp
  | cons c t ih =>
      intro bs rest hrest hsp htb
      rw [List.contains_cons, Bool.or_eq_false_iff] at hsp htb
      have hsp1 := hsp.1
      have htb1 := htb.1
      simp only [beq_eq_false_iff_ne, ne_eq] at hsp1 htb1
      have hcs : ¬ c = ' ' := fun hh => hsp1 hh.symm
      have hct : ¬ c = '\t' := fun hh => htb1 hh.symm
      simp only [l2cBody]
      by_cases hc1 : c = '\\'
      · rw [if_pos hc1, ih (bs + 1) rest hrest hsp.2 htb.2,
          List.replicate_succ', hc1]
        simp
      · by_cases hc2 : c = '"'
        · rw [if_neg hc1, if_pos hc2]
          rw [List.append_assoc, parseArgAux_replicate, List.cons_append]
          rw [parseArgAux, if_neg (by decide), if_pos rfl,
            if_neg (by omega : ¬(0 + (2 * bs + 1)) % 2 = 0)]
          have hdiv : (0 + (2 * bs + 1)) / 2 = bs := by omega
          rw [hdiv]
          simp only [ih 0 rest hrest hsp.2 htb.2]
          rw [hc2]
          simp
        · rw [if_neg hc1, if_neg hc2]
          rw [List.append_assoc, parseArgAux_replicate, List.cons_append]
          rw [parseArgAux, if_neg hc1, if_neg hc2,
            if_neg (by
              intro hh
              rcases hh.1 with h | h
              · exact hcs h
              · exact hct h)]
          simp only [ih 0 rest hrest hsp.2 htb.2]
          simp

theorem parse_quoteArg (arg : List Char) (rest : List Char)
    (hrest : TailOk rest) :
    parseArgAux (quoteArg arg ++ rest) false 0 = (arg, rest) := by
  unfold quoteArg
  by_cases hnq : needquote arg = true
  · rw [if_pos hnq, hnq]
    simp only [List.cons_append, List.nil_append]
    rw [parseArgAux, if_neg (by decide), if_pos rfl, if_pos (by omega)]
    simp only [Bool.not_false, parse_l2cBody_quoted arg 0 rest hrest]
    simp
  · have hb : needquote arg = false := by
      cases hq : needquote arg
      · rfl
      · exact absurd hq hnq
    rw [hb]
    unfold needquote at hb
    simp only [Bool.or_eq_false_iff] at hb
    rw [if_neg (Bool.false_ne_true), List.nil_append,
      parse_l2cBody_unquoted arg 0 rest hrest hb.1.1 hb.1.2]
    simp

theorem l2cBody_bs_pos_head (nq : Bool) :
    ∀ (t : List Char) (bs : Nat), 1 ≤ bs →
      ∃ s, l2cBody nq t bs = '\\' :: s := by
  intro t
  induction t with
  | nil =>
      intro bs hbs
      refine ⟨List.replicate (bs - 1) '\\' ++
        (if nq then List.replicate bs '\\' ++ ['"'] else []), ?_⟩
      simp only [l2cBody]
      rw [show bs = (bs - 1) + 1 by omega, List.replicate_succ]
      simp [List.replicate_succ]
  | cons c r ih =>
      intro bs hbs
      simp only [l2cBody]
      by_cases hc1 : c = '\\'
      · rw [if_pos hc1]
        exact ih (bs + 1) (by omega)
      · by_cases hc2 : c = '"'
        · rw [if_neg hc1, if_pos hc2]
          exact ⟨List.replicate (2 * bs) '\\' ++ '"' :: l2cBody nq r 0, by
            rw [show 2 * bs + 1 = (2 * bs) + 1 by rfl]
            simp [List.replicate_succ]⟩
        · rw [if_neg hc1, if_neg hc2]
          exact ⟨List.replicate (bs - 1) '\\' ++ c :: l2cBody nq r 0, by
            rw [show bs = (bs - 1) + 1 by omega, List.replicate_succ]
            simp [List.replicate_succ]⟩

theorem quoteArg_head (arg : List Char) :
    ∃ c s, quoteArg arg = c :: s ∧ ¬ c = ' ' ∧ ¬ c = '\t' := by
  unfold quoteArg
  by_cases hnq : needquote arg = true
  · rw [if_pos hnq]
    exact ⟨'"', l2cBody (needquote arg) arg 0, by simp, by decide, by decide⟩
  · have hb : needquote arg = false := by
      cases hq : needquote arg
      · rfl
      · exact absurd hq hnq
    rw [hb, if_neg (Bool.false_ne_true), List.nil_append]
    unfold needquote at hb
    simp only [Bool.or_eq_false_iff] at hb
    obtain ⟨⟨hsp, htb⟩, hne⟩ := hb
    match arg, hsp, htb, hne with
    | [], _, _, hne => simp at hne
    | c :: t, hsp, htb, _ =>
      rw [List.contains_cons, Bool.or_eq_false_iff] at hsp htb
      have hsp1 := hsp.1
      have htb1 := htb.1
      simp only [beq_eq_false_iff_ne, ne_eq] at hsp1 htb1
      simp only [l2cBody]
      by_cases hc1 : c = '\\'
      · rw [if_pos hc1]
        obtain ⟨s, hs⟩ := l2cBody_bs_pos_head false t (0 + 1) (by omega)
        exact ⟨'\\', s, hs, by decide, by decide⟩
      · by_cases hc2 : c = '"'
        · rw [if_neg hc1, if_pos hc2]
          exact ⟨'\\', List.replicate (2 * 0) '\\' ++ '"' :: l2cBody false t 0,
            by simp [List.replicate_succ], by decide, by decide⟩
        · rw [if_neg hc1, if_neg hc2]
          exact ⟨c, l2cBody false t 0, by simp,
            fun hh => hsp1 hh.symm, fun hh => htb1 hh.symm⟩

theorem l2cBody_quoted_closes (arg : List Char) :
    ∀ bs : Nat, ∃ s, l2cBody true arg bs = s ++ ['"'] := by
  induction arg with
  | nil =>
      intro bs
      exact ⟨List.replicate bs '\\' ++ List.replicate bs '\\', by
        simp only [l2cBody, if_true]
        rw [List.append_assoc]⟩
  | cons c t ih =>
      intro bs
      simp only [l2cBody]
      by_cases hc1 : c = '\\'
      · rw [if_pos hc1]
        exact ih (bs + 1)
      · by_cases hc2 : c = '"'
        · rw [if_neg hc1, if_pos hc2]
          obtain ⟨s, hs⟩ := ih 0
          exact ⟨List.replicate (2 * bs + 1) '\\' ++ '"' :: s, by
            rw [hs]; simp⟩
        · rw [if_neg hc1, if_neg hc2]
          obtain ⟨s, hs⟩ := ih 0
          exact ⟨List.replicate bs '\\' ++ c :: s, by rw [hs]; simp⟩

theorem tokenizeLoop_arg (a : List Char) (rest : List Char)
    (hrest : TailOk rest) :
    tokenizeLoop (quoteArg a ++ rest) = a :: tokenizeLoop rest := by
  obtain ⟨c, s, hcs, hc1, hc2⟩ := quoteArg_head a
  have hparse := parse_quoteArg a rest hrest
  rw [hcs] at hparse ⊢
  rw [List.cons_append] at hparse ⊢
  rw [tokenizeLoop]
  rw [dif_neg (by
    intro hh
    rcases hh with h | h
    · exact hc1 h
    · exact hc2 h)]
  rw [hparse]

/-- Full roundtrip: tokenizing the `list2cmdline`-constructed command line
with the MS C runtime rules recovers the original argument list. -/
theorem tokenize_list2cmdline (args : List (List Char)) :
    tokenizeLoop (list2cmdline args) = args := by
  induction args with
  | nil => rw [list2cmdline, tokenizeLoop]
  | cons a t ih =>
      cases t with
      | nil =>
          rw [list2cmdline, show quoteArg a = quoteArg a ++ [] by simp,
            tokenizeLoop_arg a [] (Or.inl rfl), tokenizeLoop]
      | cons b u =>
          rw [list2cmdline,
            show quoteArg a ++ ' ' :: list2cmdline (b :: u)
              = quoteArg a ++ (' ' :: list2cmdline (b :: u)) by rfl,
            tokenizeLoop_arg a (' ' :: list2cmdline (b :: u))
              (Or.inr ⟨list2cmdline (b :: u), rfl⟩)]
          rw [tokenizeLoop, dif_pos (Or.inl rfl), ih]

/-! ## Helper lemmas for the pipeline and the creation loop -/

theorem fallbackLoop_eq (w : PipelineWorld) :
    ∀ l : List String,
      fallbackLoop w l
        = (l.countP (fun p => w.installOk p), l.map PipEvent.installPkg) := by
  intro l
  induction l with
  | nil => rfl
  | cons p rest ih =>
      by_cases h : w.installOk p <;>
        simp [fallbackLoop, ih, List.countP_cons, h] <;> omega

theorem createEnvLoop_eq (f : Nat → Bool) :
    ∀ l : List Nat, createEnvLoop f l = (l.any f, attemptedUpTo f l) := by
  intro l
  induction l with
  | nil => rfl
  | cons v rest ih =>
      by_cases h : f v <;> simp [createEnvLoop, attemptedUpTo, h, ih]

theorem attemptedUpTo_of_all_fail (f : Nat → Bool) :
    ∀ l : List Nat, l.any f = false → attemptedUpTo f l = l := by
  intro l
  induction l with
  | nil => intro _; rfl
  | cons v rest ih =>
      intro h
      simp only [List.any_cons, Bool.or_eq_false_iff] at h
      simp [attemptedUpTo, h.1, ih h.2]

theorem candRel_ge {a b : Nat} (h : CandRel a b) : b ≤ a := by
  unfold CandRel candLE at h
  by_cases h1 : a < 13 <;> by_cases h2 : b < 13 <;>
    simp [h1, h2] at h <;> omega

/-! ## Claim theorems -/

/-- C9.  The program's process exit status is 0 when the orchestrated
setup completes successfully, 1 when the orchestrator reports failure,
2 when an unexpected internal fault reaches the top level, and 130 when
the operator interrupts the run (`Setup.py:641-645`). -/
theorem C9_exit_codes :
    mainExitCode (SetupOutcome.finished true) = 0 ∧
    mainExitCode (SetupOutcome.finished false) = 1 ∧
    mainExitCode SetupOutcome.internalFault = 2 ∧
    mainExitCode SetupOutcome.interrupted = 130 :=
  ⟨rfl, rfl, rfl, rfl⟩

/-- C10.  If the repository's `requirements.txt` manifest does not exist
at the start of the installation pipeline, `install_requirements`
returns failure immediately and no pipeline stage runs: the result is
`false` with an empty event trace (`Setup.py:419-421`). -/
theorem C10_missing_manifest_aborts (w : PipelineWorld)
    (h : w.reqFileExists = false) :
    install_requirements w = (false, []) := by
  unfold install_requirements
  rw [if_pos (by simp [h])]

/-- Closed instantiation of `C10_missing_manifest_aborts`. -/
theorem C10_missing_manifest_aborts_witness :
    install_requirements
      ⟨false, fun _ => true, fun _ => true, true, "PyTorch 2.1",
        true, true, 11⟩ = (false, []) :=
  C10_missing_manifest_aborts _ rfl

/-- C7.  The critical-package fallback attempts every package of the
fixed curated list (the event trace always contains one install event
per listed package, independent of any failures), and it reports overall
success if and only if at least one package installed successfully
(`Setup.py:520-528`). -/
theorem C7_fallback_attempts_all_succeeds_iff_any (w : PipelineWorld) :
    (install_critical_packages_fallback w).2
        = PipEvent.fallbackStage :: criticalPkgs.map PipEvent.installPkg ∧
    ((install_critical_packages_fallback w).1 = true ↔
      ∃ p ∈ criticalPkgs, w.installOk p = true) := by
  unfold install_critical_packages_fallback
  rw [fallbackLoop_eq]
  refine ⟨rfl, ?_⟩
  simp [List.countP_pos]

/-- C1 counterexample.  The claim asserts that every nonzero process exit
is surfaced as `succeeded = false` regardless of whether strict checking
was requested; but with strict checking disabled (`check=False`, as used
for probe commands such as `conda --version`) a process exiting with
code 1 is reported as `succeeded = true` (`Setup.py:96-101`). -/
theorem C1_counterexample :
    (run_command (Cmd.ofList ["git", "pull"]) true false false
      (ProcOutcome.completed 1 none none)).succeeded = true := rfl

/-- C1 (amended).  Each failure condition that `run_command` classifies
as a failure is surfaced as a returned result with `succeeded = false`:
a missing executable and a launch error always, and a nonzero exit
whenever strict checking is requested.  (With strict checking disabled a
nonzero exit is reported as success; no path raises.) -/
theorem C1_failure_conditions_return_false (command : Cmd)
    (captureOutput check shell : Bool) (msg : String) (rc : Int)
    (out err : Option String) :
    (run_command command captureOutput check shell
        (ProcOutcome.fileNotFound msg)).succeeded = false ∧
    (run_command command captureOutput check shell
        (ProcOutcome.launchError msg)).succeeded = false ∧
    (check = true → ¬ rc = 0 →
      (run_command command captureOutput check shell
        (ProcOutcome.completed rc out err)).succeeded = false) := by
  refine ⟨rfl, rfl, ?_⟩
  intro hc hrc
  simp [run_command, hc, hrc]

/-- Closed instantiation of `C1_failure_conditions_return_false`. -/
theorem C1_failure_conditions_return_false_witness :
    (run_command (Cmd.ofList ["conda", "--version"]) true true false
        (ProcOutcome.fileNotFound "No such file or directory: conda")
      ).succeeded = false ∧
    (run_command (Cmd.ofList ["git", "clone"]) true true false
        (ProcOutcome.launchError "PermissionError")).succeeded = false ∧
    (run_command (Cmd.ofList ["git", "clone"]) true true false
        (ProcOutcome.completed 128 (some "") (some "fatal: not found"))
      ).succeeded = false :=
  ⟨(C1_failure_conditions_return_false (Cmd.ofList ["conda", "--version"])
      true true false "No such file or directory: conda" 0 none none).1,
   (C1_failure_conditions_return_false (Cmd.ofList ["git", "clone"])
      true true false "PermissionError" 0 none none).2.1,
   (C1_failure_conditions_return_false (Cmd.ofList ["git", "clone"])
      true true false "" 128 (some "") (some "fatal: not found")).2.2
      rfl (by decide)⟩

/-- C2 counterexample.  The claim asserts that the critical-package
fallback stage executes when Verification fails; but in a run where
every install succeeds and the torch verification command fails, the
verification stage executes and fails, the pipeline returns failure,
and the fallback stage never executes (`Setup.py:481`). -/
theorem C2_counterexample :
    PipEvent.verifyTorch ∈
      (install_requirements
        ⟨true, fun _ => true, fun _ => true, false, "", true, true, 11⟩).2 ∧
    (install_requirements
        ⟨true, fun _ => true, fun _ => true, false, "", true, true, 11⟩).1
      = false ∧
    ¬ PipEvent.fallbackStage ∈
      (install_requirements
        ⟨true, fun _ => true, fun _ => true, false, "", true, true, 11⟩).2 := by
  refine ⟨by decide, by decide, by decide⟩

/-- C2 (amended).  The FallbackCriticalSet stage executes if and only if
the BulkRequirements stage executes and fails; in particular a
Verification failure terminates the pipeline without running the
fallback (`Setup.py:481,505-518`). -/
theorem C2_fallback_iff_bulk_fails (w : PipelineWorld) :
    PipEvent.fallbackStage ∈ (install_requirements w).2 ↔
      (PipEvent.bulkInstall ∈ (install_requirements w).2 ∧
        w.bulkOk = false) := by
  by_cases hr : w.reqFileExists = true
  · by_cases hpt : (installFirstFail w (pt_pip_specs w.minor)).1 = true
    · by_cases hv : w.verifyOk = true ∧ ¬ w.verifyStdout = ""
      · by_cases hb : w.bulkOk = true
        · by_cases hg : w.gradioShowOk = true <;>
            simp [install_requirements, install_gradio_step, hr, hpt, hv,
              hb, hg, List.mem_append, List.mem_map]
        · simp [install_requirements, install_critical_packages_fallback,
            fallbackLoop_eq, hr, hpt, hv, hb, List.mem_append,
            List.mem_map]
      · simp [install_requirements, hr, hpt, hv, List.mem_append,
          List.mem_map]
    · simp [install_requirements, hr, hpt, List.mem_append, List.mem_map]
  · simp [install_requirements, hr]

/-- C8 counterexample.  The claim asserts that on every path where the
pipeline reports overall success the dedicated gradio helper has been
invoked; but in a run where the bulk requirements install fails and the
fallback succeeds, the pipeline returns success and the gradio helper is
never invoked (`Setup.py:517`). -/
theorem C8_counterexample :
    (install_requirements
        ⟨true, fun _ => true, fun _ => true, true, "PyTorch 2.1", false,
          true, 11⟩).1 = true ∧
    ¬ PipEvent.gradioHelper ∈
      (install_requirements
        ⟨true, fun _ => true, fun _ => true, true, "PyTorch 2.1", false,
          true, 11⟩).2 := by
  refine ⟨by decide, by decide⟩

/-- C8 (amended).  The dedicated gradio helper is invoked exactly on the
bulk-requirements success path: `gradioHelper` is in the pipeline trace
iff the bulk install ran and succeeded.  On the fallback success path the
helper is not invoked (gradio is then only attempted as one entry of the
curated critical-package list, which `criticalPkgs` contains). -/
theorem C8_gradio_helper_iff_bulk_success (w : PipelineWorld) :
    (PipEvent.gradioHelper ∈ (install_requirements w).2 ↔
      (PipEvent.bulkInstall ∈ (install_requirements w).2 ∧
        w.bulkOk = true)) ∧
    "gradio" ∈ criticalPkgs := by
  refine ⟨?_, by decide⟩
  by_cases hr : w.reqFileExists = true
  · by_cases hpt : (installFirstFail w (pt_pip_specs w.minor)).1 = true
    · by_cases hv : w.verifyOk = true ∧ ¬ w.verifyStdout = ""
      · by_cases hb : w.bulkOk = true
        · by_cases hg : w.gradioShowOk = true <;>
            simp [install_requirements, install_gradio_step, hr, hpt, hv,
              hb, hg, List.mem_append, List.mem_map]
        · simp [install_requirements, install_critical_packages_fallback,
            fallbackLoop_eq, hr, hpt, hv, hb, List.mem_append,
            List.mem_map]
      · simp [install_requirements, hr, hpt, hv, List.mem_append,
          List.mem_map]
    · simp [install_requirements, hr, hpt, List.mem_append, List.mem_map]
  · simp [install_requirements, hr]

/-- C3 counterexample.  The claim asserts that with a host interpreter of
minor version 10 (within the known-good range) creation tries the host's
own version 3.10 first; but the candidate sort of `Setup.py:310` orders
candidates by descending minor version, so the first attempted candidate
is 3.12, and with every candidate failing the attempted order is
`[12, 11, 10]`. -/
theorem C3_counterexample :
    (createEnvLoop (fun _ => false) (pyMinorCandidates 10)).2.head?
        = some 12 ∧
    ¬ (createEnvLoop (fun _ => false) (pyMinorCandidates 10)).2.head?
        = some 10 := by
  refine ⟨by decide, by decide⟩

/-- C3 (amended).  When no matching environment exists, creation tries the
interpreter version candidates — the distinct minors among the host's
own minor (when at most 11) and the fixed list 11, 10, 12 — in
descending version order (3.12 first), stopping at the first candidate
that succeeds, and reports failure only after every candidate has been
attempted (in which case the whole candidate list was tried). -/
theorem C3_candidates_descending_first_success (minor : Nat)
    (f : Nat → Bool) :
    (createEnvLoop f (pyMinorCandidates minor)).1
        = (pyMinorCandidates minor).any f ∧
    (createEnvLoop f (pyMinorCandidates minor)).2
        = attemptedUpTo f (pyMinorCandidates minor) ∧
    ((pyMinorCandidates minor).any f = false →
      (createEnvLoop f (pyMinorCandidates minor)).2
        = pyMinorCandidates minor) ∧
    List.Sorted (fun a b => b ≤ a) (pyMinorCandidates minor) ∧
    (pyMinorCandidates minor).Nodup ∧
    (∀ v, v ∈ pyMinorCandidates minor ↔
      ((minor ≤ 11 ∧ v = minor) ∨ v = 11 ∨ v = 10 ∨ v = 12)) := by
  have hperm := List.perm_insertionSort CandRel
    (((if minor ≤ 11 then [minor] else []) ++ [11, 10, 12]).dedup)
  refine ⟨(createEnvLoop_eq f _).symm ▸ rfl, ?_, ?_, ?_, ?_, ?_⟩
  · rw [createEnvLoop_eq]
  · intro hfail
    rw [createEnvLoop_eq]
    exact attemptedUpTo_of_all_fail f _ hfail
  · have hs := List.sorted_insertionSort CandRel
      (((if minor ≤ 11 then [minor] else []) ++ [11, 10, 12]).dedup)
    exact hs.imp (fun hab => candRel_ge hab)
  · unfold pyMinorCandidates
    exact hperm.nodup_iff.mpr (List.nodup_dedup _)
  · intro v
    unfold pyMinorCandidates
    rw [hperm.mem_iff, List.mem_dedup]
    by_cases h : minor ≤ 11 <;> simp [h]

/-- Closed instantiation of `C3_candidates_descending_first_success`:
with host minor 10 and every creation attempt failing, the attempted
trace is the whole candidate list. -/
theorem C3_candidates_descending_first_success_witness :
    (pyMinorCandidates 10).any (fun _ => false) = false ∧
    (createEnvLoop (fun _ => false) (pyMinorCandidates 10)).2
        = pyMinorCandidates 10 :=
  ⟨by decide,
    (C3_candidates_descending_first_success 10 (fun _ => false)).2.2.1
      (by decide)⟩

/-- C6 counterexample.  The claim asserts that provisioning fails when
the interpreter path cannot be resolved; but in a run where no
environment pre-exists, creation succeeds on the first candidate, and
the environment registry json is unparsable (resolution yields nothing),
`create_conda_environment` still returns success with an unresolved
interpreter path (`Setup.py:316,323-334`). -/
theorem C6_counterexample :
    create_conda_environment "bagel_env" false
        ⟨false, [], EnvChoice.recreate, true, fun _ => true, 11, true,
          none, fun _ => false⟩
      = (true, none) := by
  decide

/-- C6 (amended).  Failing to resolve the interpreter path is not fatal
to the provisioning stage, for the created environment as well as for
the reused one: when no matching environment exists and some creation
candidate succeeds, and likewise when a matching environment exists and
the operator chooses to reuse it, the stage reports success even though
the resolution returned nothing (the source only prints a warning and
leaves the previously stored interpreter path unchanged). -/
theorem C6_unresolved_path_not_fatal (envName : String) (windows : Bool)
    (w : CondaWorld)
    (hres : resolveCondaPython envName windows w = none) :
    (condaEnvExists envName w = false →
      (pyMinorCandidates w.hostMinor).any w.createOk = true →
      create_conda_environment envName windows w = (true, none)) ∧
    (condaEnvExists envName w = true → w.choice = EnvChoice.use →
      create_conda_environment envName windows w = (true, none)) := by
  constructor
  · intro hne hcr
    unfold create_conda_environment
    rw [if_neg (by rw [hne]; exact Bool.false_ne_true), createEnvLoop_eq,
      if_pos (by rw [hcr]), hres]
  · intro hex huse
    unfold create_conda_environment
    rw [if_pos hex, huse, hres]

/-- Closed instantiations of `C6_unresolved_path_not_fatal`: the creation
path (Windows host, registry listing command failed outright) and the
reuse path (matching environment listed, operator chooses reuse, json
registry unparsable). -/
theorem C6_unresolved_path_not_fatal_witness :
    create_conda_environment "bagel_env" true
        ⟨false, [], EnvChoice.use, true,
          fun _ => true, 12, false, some [["C:", "envs", "other"]],
          fun _ => true⟩
      = (true, none) ∧
    create_conda_environment "bagel_env" false
        ⟨true, ["# conda environments:",
            "bagel_env    /home/user/miniconda3/envs/bagel_env"],
          EnvChoice.use, true, fun _ => false, 11, true, none,
          fun _ => true⟩
      = (true, none) :=
  ⟨(C6_unresolved_path_not_fatal "bagel_env" true _ (by decide)).1
      (by decide) (by decide),
   (C6_unresolved_path_not_fatal "bagel_env" false _ (by decide)).2
      (by decide) rfl⟩

/-- C5.  The installer command builder produces, for the conda backend,
an invocation routed through `conda run -n <env> python -m pip` joined
into a shell string (shell-interpreted); for the venv backend a direct
argument sequence against the resolved interpreter (given that the
resolved interpreter path is not the literal string `conda`, which no
resolved path is); and, on a Windows host whose resolved interpreter
path contains an msys/mingw substring, a shell string in which the
interpreter path is wrapped in double quotes. -/
theorem C5_installer_command_shapes (c : EnvCfg) (pkg : String)
    (flags : List String) :
    (c.useConda = true →
      _install_package_with_pip_cmd c pkg flags
        = (true, Cmd.ofString (list2cmdlineStr
            (["conda", "run", "-n", c.envName, "python", "-m", "pip",
              "install"] ++ effectiveFlags flags ++ [pkg])))) ∧
    (c.useConda = false → is_msys_python_base c = false →
      ¬ c.pythonExecutable = "conda" →
      _install_package_with_pip_cmd c pkg flags
        = (false, Cmd.ofList ([c.pythonExecutable, "-m", "pip", "install"]
            ++ effectiveFlags flags ++ [pkg]))) ∧
    (c.useConda = false → is_msys_python_base c = true →
      _install_package_with_pip_cmd c pkg flags
        = (true, Cmd.ofString ("\"" ++ c.pythonExecutable ++ "\""
            ++ " -m pip" ++ " install "
            ++ String.intercalate " " ((effectiveFlags flags).map shlexQuote)
            ++ " " ++ shlexQuote pkg))) := by
  refine ⟨?_, ?_, ?_⟩
  · intro hconda
    simp [_install_package_with_pip_cmd, _get_pip_executable_cmd_list,
      hconda, List.headD]
  · intro hvenv hmsys hpc
    simp [_install_package_with_pip_cmd, _get_pip_executable_cmd_list,
      hvenv, hmsys, List.headD, hpc]
  · intro hvenv hmsys
    have hsys : c.system = "windows" :=
      (of_decide_eq_true hmsys).1
    simp [_install_package_with_pip_cmd, _get_pip_executable_cmd_list,
      hvenv, hmsys, hsys]

/-- Closed instantiations of `C5_installer_command_shapes`, one per
backend shape. -/
theorem C5_installer_command_shapes_witness :
    (_install_package_with_pip_cmd ⟨true, "linux", "bagel_env", "python3"⟩
        "torch>=2.0.0" []
      = (true, Cmd.ofString (list2cmdlineStr
          (["conda", "run", "-n", "bagel_env", "python", "-m", "pip",
            "install"] ++ effectiveFlags [] ++ ["torch>=2.0.0"])))) ∧
    (_install_package_with_pip_cmd
        ⟨false, "linux", "bagel_env", "/venv/bin/python"⟩
        "torch>=2.0.0" []
      = (false, Cmd.ofList (["/venv/bin/python", "-m", "pip", "install"]
          ++ effectiveFlags [] ++ ["torch>=2.0.0"]))) ∧
    (_install_package_with_pip_cmd
        ⟨false, "windows", "bagel_env", "C:\\msys64\\python.exe"⟩
        "torch>=2.0.0" []
      = (true, Cmd.ofString ("\"" ++ "C:\\msys64\\python.exe" ++ "\""
          ++ " -m pip" ++ " install "
          ++ String.intercalate " " ((effectiveFlags []).map shlexQuote)
          ++ " " ++ shlexQuote "torch>=2.0.0"))) :=
  ⟨(C5_installer_command_shapes ⟨true, "linux", "bagel_env", "python3"⟩
      "torch>=2.0.0" []).1 rfl,
   (C5_installer_command_shapes
      ⟨false, "linux", "bagel_env", "/venv/bin/python"⟩
      "torch>=2.0.0" []).2.1 rfl (by decide) (by decide),
   (C5_installer_command_shapes
      ⟨false, "windows", "bagel_env", "C:\\msys64\\python.exe"⟩
      "torch>=2.0.0" []).2.2 rfl (by decide)⟩

/-- C4.  For every argument sequence in which some arguments contain
spaces, the shell-string construction performed by the process executor
(`subprocess.list2cmdline`, `Setup.py:73`) wraps each space-containing
argument in double quotes, and re-tokenizing the constructed command
line with the MS C runtime shell-lexical rules yields back exactly the
original argument sequence. -/
theorem C4_quoting_and_roundtrip (args : List (List Char))
    (_hsp : ∃ arg ∈ args, ' ' ∈ arg) :
    (∀ arg ∈ args, ' ' ∈ arg →
      ∃ s, quoteArg arg = '"' :: (s ++ ['"'])) ∧
    tokenizeLoop (list2cmdline args) = args := by
  refine ⟨?_, tokenize_list2cmdline args⟩
  intro arg _ hmem
  have hnq : needquote arg = true := by
    simp only [needquote, Bool.or_eq_true]
    exact Or.inl (Or.inl (List.elem_iff.mpr hmem))
  obtain ⟨s, hs⟩ := l2cBody_quoted_closes arg 0
  refine ⟨s, ?_⟩
  unfold quoteArg
  rw [hnq, hs]
  rfl

/-- Closed instantiation of `C4_quoting_and_roundtrip` on the argument
sequence `pip install "my pkg"`. -/
theorem C4_quoting_and_roundtrip_witness :
    (∃ arg ∈ ["pip", "install", "my pkg"].map String.data, ' ' ∈ arg) ∧
    ((∀ arg ∈ ["pip", "install", "my pkg"].map String.data, ' ' ∈ arg →
        ∃ s, quoteArg arg = '"' :: (s ++ ['"'])) ∧
      tokenizeLoop
          (list2cmdline (["pip", "install", "my pkg"].map String.data))
        = ["pip", "install", "my pkg"].map String.data) :=
  ⟨by decide,
    C4_quoting_and_roundtrip (["pip", "install", "my pkg"].map String.data)
      (by decide)⟩

end BAGELSetup
